import Mathlib

set_option maxHeartbeats 1000000

/-!
Verification of the chartwise-service repository against its specification.

Part 1 embeds the Cognito i18n Lambda (`app/dependencies/core/lambdas/i18n_lambda/index.js`),
which contains two implementations of `exports.handler`: the first at lines 83-120
(per-language template constants, throws on an unhandled language), the second at
lines 121-175 (a `templates` object, silently defaulting to English).

Part 2 models the realtime insight-delivery pipeline described in `spec.md`;
its code is not present under `src/`, so those definitions are modelled from the
spec, as their doc comments state.
-/

namespace ChartWise
namespace I18n

/-- The `userAttributes` map of a Cognito event, restricted to the keys the two
handlers read: `custom:language_preference` (may be absent) and `email`
(may be absent; the first handler dereferences it unconditionally in the
ForgotPassword branch via `Buffer.from`). -/
structure UserAttributes where
  languagePreference : Option String
  email : Option String
deriving DecidableEq

/-- `event.request` as read by the handlers. -/
structure CognitoRequest where
  userAttributes : UserAttributes
  codeParameter : String
deriving DecidableEq

/-- `event.response`, mutated by the handlers. -/
structure CognitoResponse where
  emailMessage : Option String
  emailSubject : Option String
deriving DecidableEq

/-- A Cognito custom-message trigger event, as read and written by `index.js`. -/
structure CognitoEvent where
  triggerSource : String
  request : CognitoRequest
  response : CognitoResponse
deriving DecidableEq

/-- JS string truthiness for the idiom `attr || defaultValue`: an absent
attribute and the empty string are both falsy and yield the default. -/
def jsOrDefault : Option String → String → String
  | none, d => d
  | some s, d => if s = "" then d else s

/-- JS `String.prototype.startsWith`: the pattern is a prefix of the string. -/
def jsStartsWith (s pat : String) : Bool :=
  pat.data.isPrefixOf s.data

/-- JS `String.prototype.toLowerCase`: lowercase every character. -/
def jsToLower (s : String) : String :=
  ⟨s.data.map Char.toLower⟩

/-- `(event.request.userAttributes['custom:language_preference'] || 'en').toLowerCase()`,
computed identically by both handler implementations. -/
def userLanguageOf (e : CognitoEvent) : String :=
  jsToLower (jsOrDefault e.request.userAttributes.languagePreference "en")

/-- The `{##verify_code##}` placeholder both handlers substitute.
Each template contains it exactly once, so JS replace-first and Lean
`String.replace` (replace-all) coincide on these templates. -/
def verifyCodeToken : String := "\x7b##verify_code##\x7d"

/-- `verifyEmailEnglishTemplate` (index.js lines 3-21). -/
def verifyEmailEnglishTemplate : String :=
"
<div style=\"text-align: center; font-family: Arial, sans-serif;\">
  <img
    src=\"https://chartwise-public-media.s3.us-east-2.amazonaws.com/logo.png\"
    alt=\"ChartWise Logo\"
    width=\"200\"
    style=\"margin-bottom: 20px;\"
  />

  <h2>Verify Your Email</h2>

  <p style=\"font-size: 16px;\">Use the code below to verify your email address:</p>
  <p style=\"font-size: 24px; font-weight: bold; letter-spacing: 1px;\">\x7b##verify_code##\x7d</p>

  <p style=\"font-size: 14px; color: #888; margin-top: 30px;\">
    If you didn’t create a ChartWise account, you can ignore this email or contact support.
  </p>
</div>
"

/-- `forgotPasswordEnglishTemplate` (index.js lines 23-41). -/
def forgotPasswordEnglishTemplate : String :=
"
<div style=\"text-align: center; font-family: Arial, sans-serif;\">
  <img
    src=\"https://chartwise-public-media.s3.us-east-2.amazonaws.com/logo.png\"
    alt=\"ChartWise Logo\"
    width=\"200\"
    style=\"margin-bottom: 20px;\"
  />

  <h2>Reset Your Password</h2>

  <p style=\"font-size: 16px;\">Use the code below to reset your password:</p>
  <p style=\"font-size: 24px; font-weight: bold; letter-spacing: 1px;\">\x7b##verify_code##\x7d</p>

  <p style=\"font-size: 14px; color: #888; margin-top: 30px;\">
    If you didn’t request a password reset, you can ignore this email or contact support.
  </p>
</div>
"

/-- `verifyEmailSpanishTemplate` (index.js lines 43-61). -/
def verifyEmailSpanishTemplate : String :=
"
<div style=\"text-align: center; font-family: Arial, sans-serif;\">
  <img
    src=\"https://chartwise-public-media.s3.us-east-2.amazonaws.com/logo.png\"
    alt=\"ChartWise Logo\"
    width=\"200\"
    style=\"margin-bottom: 20px;\"
  />

  <h2>Verifica tu correo electrónico</h2>

  <p style=\"font-size: 16px;\">Usa el siguiente código para verificar tu correo electrónico:</p>
  <p style=\"font-size: 24px; font-weight: bold; letter-spacing: 1px;\">\x7b##verify_code##\x7d</p>

  <p style=\"font-size: 14px; color: #888; margin-top: 30px;\">
    Si no creaste una cuenta en ChartWise, puedes ignorar este correo o contactar al equipo de soporte.
  </p>
</div>
"

/-- `forgotPasswordSpanishTemplate` (index.js lines 63-81). -/
def forgotPasswordSpanishTemplate : String :=
"
<div style=\"text-align: center; font-family: Arial, sans-serif;\">
  <img
    src=\"https://chartwise-public-media.s3.us-east-2.amazonaws.com/logo.png\"
    alt=\"ChartWise Logo\"
    width=\"200\"
    style=\"margin-bottom: 20px;\"
  />

  <h2>Restablecer contraseña</h2>

  <p style=\"font-size: 16px;\">Usa el siguiente código para restablecer tu contraseña:</p>
  <p style=\"font-size: 24px; font-weight: bold; letter-spacing: 1px;\">\x7b##verify_code##\x7d</p>

  <p style=\"font-size: 14px; color: #888; margin-top: 30px;\">
    Si no solicitaste restablecer tu contraseña, puedes ignorar este correo o contactar al equipo de soporte.
  </p>
</div>
"

/-- One language entry of the second implementation's `templates` object. -/
structure TemplateSet where
  verificationSubject : String
  verificationBody : String
  forgotPasswordSubject : String
  forgotPasswordBody : String
deriving DecidableEq

/-- `templates.en` of the second implementation (index.js lines 126-143). -/
def templatesEn : TemplateSet :=
  { verificationSubject := "Verification code"
    verificationBody :=
"
        <div style=\"text-align: center\">
          <img width=\"400px\" src=\"https://chartwise-public-media.s3.us-east-2.amazonaws.com/logo.png\" />
          <h2>Verification code</h2>
          <p>Hey, your Verification code is: \x7b##verify_code##\x7d</p>
        </div>
      "
    forgotPasswordSubject := "Reset your ChartWise password"
    forgotPasswordBody :=
"
        <div style=\"text-align: center\">
          <img width=\"400px\" src=\"https://chartwise-public-media.s3.us-east-2.amazonaws.com/logo.png\" />
          <h2>Reset Password</h2>
          <p>Use this code to reset your password: \x7b##verify_code##\x7d</p>
        </div>
      " }

/-- `templates.es` of the second implementation (index.js lines 144-161). -/
def templatesEs : TemplateSet :=
  { verificationSubject := "Código de verificación"
    verificationBody :=
"
        <div style=\"text-align: center\">
          <img width=\"400px\" src=\"https://chartwise-public-media.s3.us-east-2.amazonaws.com/logo.png\" />
          <h2>Código de verificación</h2>
          <p>Hola, tu código para verificación es: \x7b##verify_code##\x7d</p>
        </div>
      "
    forgotPasswordSubject := "Restablece tu contraseña de ChartWise"
    forgotPasswordBody :=
"
        <div style=\"text-align: center\">
          <img width=\"400px\" src=\"https://chartwise-public-media.s3.us-east-2.amazonaws.com/logo.png\" />
          <h2>Restablecer contraseña</h2>
          <p>Usa este código para restablecer tu contraseña: \x7b##verify_code##\x7d</p>
        </div>
      " }

/-- Assigning `event.response.emailMessage` and `event.response.emailSubject`. -/
def setEmail (e : CognitoEvent) (msg subj : String) : CognitoEvent :=
  { e with response := { e.response with emailMessage := some msg, emailSubject := some subj } }

/-- First `exports.handler` implementation (index.js lines 83-120).
A thrown JS error is modelled as `Except.error` with the message; the
ForgotPassword branch runs `Buffer.from(event.request.userAttributes.email)`
before dispatching on the language, which throws a `TypeError` when the
`email` attribute is absent (the base64 result itself is never used). -/
def handler1 (event : CognitoEvent) : Except String CognitoEvent :=
  if event.triggerSource = "CustomMessage_SignUp" then
    if jsStartsWith (userLanguageOf event) "en" then
      .ok (setEmail event
        (verifyEmailEnglishTemplate.replace verifyCodeToken event.request.codeParameter)
        "Verification code")
    else if jsStartsWith (userLanguageOf event) "es" then
      .ok (setEmail event
        (verifyEmailSpanishTemplate.replace verifyCodeToken event.request.codeParameter)
        "Código de verificación")
    else
      .error ("Missing handling of language " ++ userLanguageOf event ++
        " in Cognito custom trigger leveraging i18n Lambda")
  else if event.triggerSource = "CustomMessage_ForgotPassword" then
    match event.request.userAttributes.email with
    | none => .error "TypeError: Buffer.from received undefined"
    | some _ =>
      if jsStartsWith (userLanguageOf event) "en" then
        .ok (setEmail event
          (forgotPasswordEnglishTemplate.replace verifyCodeToken event.request.codeParameter)
          "Reset your ChartWise password")
      else if jsStartsWith (userLanguageOf event) "es" then
        .ok (setEmail event
          (forgotPasswordSpanishTemplate.replace verifyCodeToken event.request.codeParameter)
          "Restablece tu contraseña de ChartWise")
      else
        .error ("Missing handling of language " ++ userLanguageOf event ++
          " in Cognito custom trigger leveraging i18n Lambda")
  else
    .ok event

/-- Second `exports.handler` implementation (index.js lines 121-175):
selects `templates.es` when the language starts with `es`, otherwise
`templates.en`; assigns subject and message only for the two custom-message
triggers; never throws. -/
def handler2 (event : CognitoEvent) : Except String CognitoEvent :=
  if event.triggerSource = "CustomMessage_SignUp" then
    .ok (setEmail event
      (((if jsStartsWith (userLanguageOf event) "es" then templatesEs else templatesEn).verificationBody).replace
        verifyCodeToken event.request.codeParameter)
      (if jsStartsWith (userLanguageOf event) "es" then templatesEs else templatesEn).verificationSubject)
  else if event.triggerSource = "CustomMessage_ForgotPassword" then
    .ok (setEmail event
      (((if jsStartsWith (userLanguageOf event) "es" then templatesEs else templatesEn).forgotPasswordBody).replace
        verifyCodeToken event.request.codeParameter)
      (if jsStartsWith (userLanguageOf event) "es" then templatesEs else templatesEn).forgotPasswordSubject)
  else
    .ok event

/-- Whether the handler threw (returned `Except.error`). -/
def isThrown : Except String CognitoEvent → Bool
  | .error _ => true
  | .ok _ => false

/-- The `emailSubject` assigned by a handler run, `none` on a throw. -/
def subjectOf : Except String CognitoEvent → Option String
  | .error _ => none
  | .ok e => e.response.emailSubject

/-- Example event: sign-up trigger, no language preference. -/
def sampleSignUpEn : CognitoEvent :=
  { triggerSource := "CustomMessage_SignUp"
    request := { userAttributes := { languagePreference := none, email := some "user@chartwise.ai" }
                 codeParameter := "123456" }
    response := { emailMessage := none, emailSubject := none } }

/-- Example event: forgot-password trigger without an `email` attribute. -/
def sampleForgotNoEmail : CognitoEvent :=
  { triggerSource := "CustomMessage_ForgotPassword"
    request := { userAttributes := { languagePreference := none, email := none }
                 codeParameter := "654321" }
    response := { emailMessage := none, emailSubject := none } }

/-- Example event: sign-up trigger with a French language preference. -/
def sampleSignUpFr : CognitoEvent :=
  { triggerSource := "CustomMessage_SignUp"
    request := { userAttributes := { languagePreference := some "fr", email := some "user@chartwise.ai" }
                 codeParameter := "111111" }
    response := { emailMessage := none, emailSubject := none } }

/-- Example event: a trigger source neither handler acts on. -/
def sampleAdminCreate : CognitoEvent :=
  { triggerSource := "CustomMessage_AdminCreateUser"
    request := { userAttributes := { languagePreference := some "es", email := some "user@chartwise.ai" }
                 codeParameter := "222222" }
    response := { emailMessage := none, emailSubject := none } }

/-- Example event: forgot-password trigger, language `EN-US`, email present. -/
def sampleForgotEn : CognitoEvent :=
  { triggerSource := "CustomMessage_ForgotPassword"
    request := { userAttributes := { languagePreference := some "EN-US", email := some "user@chartwise.ai" }
                 codeParameter := "333333" }
    response := { emailMessage := none, emailSubject := none } }

end I18n
end ChartWise

namespace ChartWise
namespace Pipeline

/-- Modelled from the spec: §3 `ChangeEvent` — the realtime insight-delivery
pipeline is not present under `src/`, so this and the following definitions
follow the spec text. Immutable once created; produced only by the
Change Event Source. -/
structure ChangeEvent where
  sequence : Nat
  entity_kind : String
  entity_id : String
  tenant_id : String
  patient_id : String
  occurred_at : Nat
  payload : List (String × String)
  payload_is_encrypted : Bool
deriving DecidableEq

/-- Modelled from the spec: §3 `Subscriber` — a live client connection with its
point-in-time authorization snapshot and role entitlement capability set. -/
structure Subscriber where
  connection_id : Nat
  user_id : String
  tenant_id : String
  authorized_patient_ids : List String
  entitlement : List String
  cursor : Nat
deriving DecidableEq

/-- Modelled from the spec: §4.6/§7 — any key-resolution or cryptographic
failure of the Encryption Gate. -/
inductive EncryptionError where
  | keyResolutionFailure
  | cryptoFailure
deriving DecidableEq

/-- Modelled from the spec: §6 key service — resolves a key reference to key
material; key material is modelled as the induced partial decryption map from
ciphertext to plaintext. -/
def KeyService : Type := Nat → Option (String → Option String)

/-- Modelled from the spec: §4.6 Encryption Gate
`decrypt(ciphertext, field_classification, key_reference) → plaintext | EncryptionError`.
Stateless; fails closed: either the full plaintext or an error. -/
def decrypt (keys : KeyService) (ciphertext : String) (field_classification : String)
    (key_reference : Nat) : Except EncryptionError String :=
  match keys key_reference with
  | none => .error .keyResolutionFailure
  | some keyMaterial =>
    match keyMaterial ciphertext with
    | none => .error .cryptoFailure
    | some plaintext => .ok plaintext

/-- The Encryption Gate environment handed to the Event Router: the key
service, the key reference for the tenant, and the field-classification map.
The `field_classification` argument of `decrypt` comes from `classification`. -/
structure GateEnv where
  keys : KeyService
  key_reference : Nat
  classification : String → String

/-- Modelled from the spec: §4.2 — the Router asks the Encryption Gate to
decrypt only the fields the subscriber's entitlement allows; fields outside
the entitlement set, and fields whose decryption fails, are omitted from the
`decrypted_view` (never sent as ciphertext). -/
def viewFor (env : GateEnv) (ev : ChangeEvent) (s : Subscriber) : List (String × String) :=
  ev.payload.filterMap fun fc =>
    if fc.1 ∈ s.entitlement then
      match decrypt env.keys fc.2 (env.classification fc.1) env.key_reference with
      | .ok plaintext => some (fc.1, plaintext)
      | .error _ => none
    else none

/-- Modelled from the spec: §3 `DeliveryTask` — ephemeral, one per
(event, eligible subscriber) pair. -/
structure DeliveryTask where
  event : ChangeEvent
  subscriber : Subscriber
  decrypted_view : List (String × String)
deriving DecidableEq

/-- Construct the `DeliveryTask` for an event and an eligible subscriber. -/
def mkTask (env : GateEnv) (ev : ChangeEvent) (s : Subscriber) : DeliveryTask :=
  ⟨ev, s, viewFor env ev s⟩

/-- Modelled from the spec: §4.2 eligibility —
`s.tenant_id = event.tenant_id ∧ event.patient_id ∈ s.authorized_patient_ids`. -/
def relevantB (sub : Subscriber) (ev : ChangeEvent) : Bool :=
  sub.tenant_id == ev.tenant_id && sub.authorized_patient_ids.contains ev.patient_id

/-- Modelled from the spec: §3 `BacklogEntry` — persisted
`(subscriber_scope_key, sequence, event)` tuple of the Resume/Replay Store. -/
structure BacklogEntry where
  subscriber_scope_key : String
  sequence : Nat
  event : ChangeEvent
deriving DecidableEq

/-- Modelled from the spec: §3 — the scope key derived from tenant and patient. -/
def scope_key (tenant_id patient_id : String) : String :=
  tenant_id ++ "/" ++ patient_id

/-- The scope key of an event. -/
def scopeOf (ev : ChangeEvent) : String :=
  scope_key ev.tenant_id ev.patient_id

/-- Modelled from the spec: §4.5 — the replay error for an unrecoverable gap. -/
inductive ReplayError where
  | ErrGapExceeded
deriving DecidableEq

/-- The retained entries of one scope, in store order. -/
def entriesFor (store : List BacklogEntry) (k : String) : List BacklogEntry :=
  store.filter fun b => b.subscriber_scope_key == k

/-- The earliest retained sequence for a scope, if any entry is retained. -/
def earliestRetained (store : List BacklogEntry) (k : String) : Option Nat :=
  ((entriesFor store k).map (·.sequence)).min?

/-- Modelled from the spec: §4.5 `append(scope_key, event)` — idempotent on
sequence: re-appending an already-retained sequence for a scope is a no-op. -/
def appendEntry (store : List BacklogEntry) (k : String) (ev : ChangeEvent) : List BacklogEntry :=
  if (entriesFor store k).any (fun b => b.sequence == ev.sequence) then store
  else store ++ [⟨k, ev.sequence, ev⟩]

/-- Modelled from the spec: §4.5
`replay(scope_key, from_sequence) → ordered sequence of events, or ErrGapExceeded
if the earliest retained sequence for that scope is greater than from_sequence+1`. -/
def replay (store : List BacklogEntry) (k : String) (from_sequence : Nat) :
    Except ReplayError (List ChangeEvent) :=
  match earliestRetained store k with
  | none => .ok []
  | some m =>
    if from_sequence + 1 < m then .error .ErrGapExceeded
    else .ok (((entriesFor store k).filter fun b => from_sequence < b.sequence).map (·.event))

/-- Whether a replay request succeeded. -/
def replayOk : Except ReplayError (List ChangeEvent) → Bool
  | .ok _ => true
  | .error _ => false

/-- One live connection of the Delivery Channel: the subscriber, its outbound
queue, the events delivered so far, liveness, whether `resync_required` was
signalled, the cursor presented at connect (`base`), and the ghost flag
`caughtUp` recording that at connect time the cursor was within the backlog
retention window (every missed event still retained, cursor not ahead of the
source). -/
structure Conn where
  sub : Subscriber
  queue : List DeliveryTask
  delivered : List ChangeEvent
  live : Bool
  resync_required : Bool
  base : Nat
  caughtUp : Bool
deriving DecidableEq

/-- The observable pipeline state, together with the ghost history fields
`emitted` (every ChangeEvent the Change Event Source produced) and `tasksLog`
(every DeliveryTask ever constructed), and the count of dropped-and-logged
malformed upstream messages. -/
structure PState where
  conns : List Conn
  backlog : List BacklogEntry
  lastSeq : Nat
  emitted : List ChangeEvent
  tasksLog : List DeliveryTask
  droppedCount : Nat

/-- Modelled from the spec: §6 upstream change source — a raw message is
either malformed or carries the fields of a change. -/
inductive UpstreamMsg where
  | malformed (raw : String)
  | changed (entity_kind entity_id tenant_id patient_id : String) (occurred_at : Nat)
      (payload : List (String × String)) (payload_is_encrypted : Bool)

/-- Modelled from the spec: §4.1 Change Event Source — parse a raw message into
a canonical `ChangeEvent`, assigning the next sequence number; malformed data
yields `none` (drop + log, never propagate). -/
def parseMsg : UpstreamMsg → Nat → Option ChangeEvent
  | .malformed _, _ => none
  | .changed ek ei t p oa pl enc, seq => some ⟨seq, ek, ei, t, p, oa, pl, enc⟩

/-- Whether the Router hands this event to this connection: the connection is
live and the eligibility predicate of §4.2 holds for its subscriber snapshot. -/
def isEligible (c : Conn) (ev : ChangeEvent) : Bool :=
  c.live && relevantB c.sub ev

/-- Enqueue the event's DeliveryTask on an eligible connection's outbound
queue; other connections are untouched. -/
def routeToConn (env : GateEnv) (ev : ChangeEvent) (c : Conn) : Conn :=
  if isEligible c ev then { c with queue := c.queue ++ [mkTask env ev c.sub] } else c

/-- Route one freshly parsed `ChangeEvent`: append it to the Resume/Replay
Store and hand its DeliveryTask to every eligible live connection. -/
def ingestEvent (env : GateEnv) (ev : ChangeEvent) (s : PState) : PState :=
  { conns := s.conns.map (routeToConn env ev)
    backlog := appendEntry s.backlog (scopeOf ev) ev
    lastSeq := s.lastSeq + 1
    emitted := s.emitted ++ [ev]
    tasksLog := s.tasksLog ++ (s.conns.filter (fun c => isEligible c ev)).map (fun c => mkTask env ev c.sub)
    droppedCount := s.droppedCount }

/-- Modelled from the spec: §4.1/§4.2 data flow — ingest one upstream message:
malformed data is dropped and logged; a change is normalized into the next
`ChangeEvent`, appended to the Resume/Replay Store, and routed to every
eligible live connection. -/
def ingest (env : GateEnv) (m : UpstreamMsg) (s : PState) : PState :=
  match parseMsg m (s.lastSeq + 1) with
  | none => { s with droppedCount := s.droppedCount + 1 }
  | some ev => ingestEvent env ev s

/-- Modelled from the spec: §4.4 — the Delivery Channel sends the head of one
connection's outbound queue; on send success the cursor advances to the
delivered sequence. -/
def deliverConn (c : Conn) : Conn :=
  match c.queue with
  | [] => c
  | t :: rest =>
    { c with queue := rest, delivered := c.delivered ++ [t.event]
             sub := { c.sub with cursor := t.event.sequence } }

/-- Send the next queued event on the connection(s) with the given id. -/
def deliver (cid : Nat) (s : PState) : PState :=
  { s with conns := s.conns.map fun c =>
      if c.sub.connection_id == cid then deliverConn c else c }

/-- Whether replay succeeds for every scope of the subscriber (no scope's
earliest retained sequence exceeds `cursor + 1`). -/
def gapFreeFor (backlog : List BacklogEntry) (sub : Subscriber) (cursor : Nat) : Bool :=
  sub.authorized_patient_ids.all fun p =>
    replayOk (replay backlog (scope_key sub.tenant_id p) cursor)

/-- The retained events the subscriber missed, in store (= sequence) order. -/
def missedFor (backlog : List BacklogEntry) (sub : Subscriber) (cursor : Nat) : List ChangeEvent :=
  (backlog.filter fun b => relevantB sub b.event && decide (cursor < b.sequence)).map (·.event)

/-- Ghost check recorded at connect time: the cursor is genuinely within the
backlog retention window — every emitted event the subscriber missed is still
retained, and the cursor does not run ahead of the source. -/
def replayCovers (s : PState) (sub : Subscriber) (cursor : Nat) : Bool :=
  (s.emitted.all fun ev =>
    !(relevantB sub ev && decide (cursor < ev.sequence)) ||
      s.backlog.any (fun b => b.event == ev)) &&
  decide (cursor ≤ s.lastSeq)

/-- Modelled from the spec: §6 client protocol + §4.2 gap policy — a client
connects presenting its last-seen cursor; the server either primes the
outbound queue with the replay of the missed events followed by live delivery,
or, when a scope's gap exceeds the retention window, signals `resync_required`
instead of replaying. -/
def connect (env : GateEnv) (sub : Subscriber) (cursor : Nat) (s : PState) : PState :=
  if gapFreeFor s.backlog sub cursor then
    { s with
      conns := s.conns ++
        [⟨sub, (missedFor s.backlog sub cursor).map (fun ev => mkTask env ev sub), [],
          true, false, cursor, replayCovers s sub cursor⟩]
      tasksLog := s.tasksLog ++ (missedFor s.backlog sub cursor).map (fun ev => mkTask env ev sub) }
  else
    { s with conns := s.conns ++ [⟨sub, [], [], false, true, cursor, false⟩] }

/-- Modelled from the spec: §3 Subscriber — destroyed on disconnect. -/
def disconnect (cid : Nat) (s : PState) : PState :=
  { s with conns := s.conns.filter fun c => c.sub.connection_id != cid }

/-- Modelled from the spec: §3/§4.5 eviction — remove the oldest retained
entry of one scope (oldest dropped first). -/
def evictOldest (k : String) (s : PState) : PState :=
  match earliestRetained s.backlog k with
  | none => s
  | some m =>
    { s with backlog := s.backlog.filter fun b =>
        !(b.subscriber_scope_key == k && b.sequence == m) }

/-- The pipeline's transition relation. -/
inductive Step (env : GateEnv) : PState → PState → Prop where
  | ingest (m : UpstreamMsg) (s : PState) : Step env s (Pipeline.ingest env m s)
  | deliver (cid : Nat) (s : PState) : Step env s (Pipeline.deliver cid s)
  | connect (sub : Subscriber) (cursor : Nat) (s : PState) :
      Step env s (Pipeline.connect env sub cursor s)
  | disconnect (cid : Nat) (s : PState) : Step env s (Pipeline.disconnect cid s)
  | evict (k : String) (s : PState) : Step env s (evictOldest k s)

/-- The empty initial pipeline state. -/
def initState : PState := ⟨[], [], 0, [], [], 0⟩

/-- The states the pipeline can reach from the initial state. -/
inductive Reachable (env : GateEnv) : PState → Prop where
  | init : Reachable env initState
  | step {s t : PState} : Reachable env s → Step env s t → Reachable env t

/-- The emitted events relevant to a subscriber with sequence above `b`,
in emission (= sequence) order. -/
def eventsAfter (emitted : List ChangeEvent) (sub : Subscriber) (b : Nat) : List ChangeEvent :=
  emitted.filter fun ev => relevantB sub ev && decide (b < ev.sequence)

/-- A well-formed DeliveryTask: authorized patient, matching tenant, and a
decrypted view computed by the entitlement-gated Router rule. -/
def taskOK (env : GateEnv) (t : DeliveryTask) : Prop :=
  t.event.patient_id ∈ t.subscriber.authorized_patient_ids ∧
  t.subscriber.tenant_id = t.event.tenant_id ∧
  t.decrypted_view = viewFor env t.event t.subscriber

/-- The inductive invariant of the pipeline. -/
structure Inv (env : GateEnv) (s : PState) : Prop where
  tasksOK : ∀ t ∈ s.tasksLog, taskOK env t
  queueOK : ∀ c ∈ s.conns, ∀ t ∈ c.queue, taskOK env t
  emittedSeq : s.emitted.map (·.sequence) = List.range' 1 s.lastSeq
  backlogWF : ∀ b ∈ s.backlog, b.event ∈ s.emitted ∧ b.sequence = b.event.sequence ∧
    b.subscriber_scope_key = scopeOf b.event
  backlogSub : List.Sublist (s.backlog.map (·.event)) s.emitted
  backlogSorted : List.Pairwise (· < ·) (s.backlog.map (·.sequence))
  connEvents : ∀ c ∈ s.conns, (∀ t ∈ c.queue, t.event ∈ s.emitted) ∧
    (∀ ev ∈ c.delivered, ev ∈ s.emitted)
  connSorted : ∀ c ∈ s.conns,
    List.Pairwise (· < ·) ((c.delivered ++ c.queue.map (·.event)).map (·.sequence))
  connComplete : ∀ c ∈ s.conns, c.live = true → c.caughtUp = true →
    c.delivered ++ c.queue.map (·.event) = eventsAfter s.emitted c.sub c.base
  baseBound : ∀ c ∈ s.conns, c.caughtUp = true → c.base ≤ s.lastSeq
  resyncInert : ∀ c ∈ s.conns, c.resync_required = true →
    c.live = false ∧ c.queue = [] ∧ c.delivered = []

/-- Demo environment: key reference 0 resolves, and every ciphertext except
"bad" decrypts to a tagged plaintext. -/
def env0 : GateEnv :=
  { keys := fun _ => some (fun c => if c = "bad" then none else some ("plain:" ++ c))
    key_reference := 0
    classification := fun _ => "phi" }

/-- Demo subscriber: tenant T, authorized for patient P, entitled to
clinical_notes and metadata. -/
def sub0 : Subscriber :=
  { connection_id := 1, user_id := "u1", tenant_id := "T",
    authorized_patient_ids := ["P"], entitlement := ["clinical_notes", "metadata"],
    cursor := 0 }

/-- Demo upstream messages. -/
def msg1 : UpstreamMsg :=
  .changed "session" "e1" "T" "P" 100 [("clinical_notes", "c1"), ("transcript", "c2")] true

/-- A second demo change on the same scope. -/
def msg2 : UpstreamMsg :=
  .changed "session" "e2" "T" "P" 101 [("clinical_notes", "c3")] true

/-- The events the demo messages normalize to. -/
def demoEv1 : ChangeEvent :=
  ⟨1, "session", "e1", "T", "P", 100, [("clinical_notes", "c1"), ("transcript", "c2")], true⟩

/-- The second demo event. -/
def demoEv2 : ChangeEvent :=
  ⟨2, "session", "e2", "T", "P", 101, [("clinical_notes", "c3")], true⟩

/-- Demo run: connect, ingest one change, deliver it. -/
def demo1 : PState := connect env0 sub0 0 initState

/-- Demo run after ingesting the first change. -/
def demo2 : PState := ingest env0 msg1 demo1

/-- Demo run after delivering the first change. -/
def demo3 : PState := deliver 1 demo2

/-- Demo reconnect run: a change happens while no one is connected, then the
subscriber connects with cursor 0 and a further live change arrives. -/
def demoR1 : PState := ingest env0 msg1 initState

/-- Reconnect run after the subscriber presents cursor 0. -/
def demoR2 : PState := connect env0 sub0 0 demoR1

/-- Reconnect run after a live change arrives. -/
def demoR3 : PState := ingest env0 msg2 demoR2

/-- Gap run: two changes, then the older backlog entry is evicted. -/
def demoG2 : PState := ingest env0 msg2 demoR1

/-- Gap run after evicting the oldest entry of scope T/P. -/
def demoG3 : PState := evictOldest (scope_key "T" "P") demoG2

/-- The connection state after the demo run demo3. -/
def demo3Conn : Conn :=
  ⟨{ sub0 with cursor := 1 }, [], [demoEv1], true, false, 0, true⟩

/-- The connection state after the reconnect run demoR3. -/
def demoRConn : Conn :=
  ⟨sub0, [mkTask env0 demoEv1 sub0, mkTask env0 demoEv2 sub0], [], true, false, 0, true⟩

/-- Two payloads agreeing on entitled fields, differing in a non-entitled one. -/
def evA : ChangeEvent :=
  ⟨1, "session", "e1", "T", "P", 100, [("clinical_notes", "c1"), ("transcript", "secretA")], true⟩

/-- evA with a different non-entitled ciphertext. -/
def evB : ChangeEvent :=
  ⟨1, "session", "e1", "T", "P", 100, [("clinical_notes", "c1"), ("transcript", "secretB")], true⟩

/-- An event whose entitled `clinical_notes` ciphertext fails to decrypt. -/
def evBad : ChangeEvent :=
  ⟨1, "session", "e1", "T", "P", 100, [("clinical_notes", "bad"), ("metadata", "m1")], true⟩


end Pipeline
end ChartWise

namespace ChartWise
namespace I18n

/-- A string starting with `en` cannot start with `es`. -/
lemma en_not_es {s : String} (h : jsStartsWith s "en" = true) : jsStartsWith s "es" = false := by
  unfold jsStartsWith at h ⊢
  have hen : ("en" : String).data = ['e', 'n'] := rfl
  have hes : ("es" : String).data = ['e', 's'] := rfl
  rw [hen] at h
  rw [hes]
  cases hs : s.data with
  | nil => rw [hs] at h; simp [List.isPrefixOf] at h
  | cons a t =>
    cases t with
    | nil => rw [hs] at h; simp [List.isPrefixOf] at h
    | cons b t2 =>
      rw [hs] at h
      simp [List.isPrefixOf] at h ⊢
      rintro rfl hb
      rw [← hb] at h
      exact absurd h.2 (by decide)

/-- A string starting with `es` cannot start with `en`. -/
lemma es_not_en {s : String} (h : jsStartsWith s "es" = true) : jsStartsWith s "en" = false := by
  unfold jsStartsWith at h ⊢
  have hen : ("en" : String).data = ['e', 'n'] := rfl
  have hes : ("es" : String).data = ['e', 's'] := rfl
  rw [hes] at h
  rw [hen]
  cases hs : s.data with
  | nil => rw [hs] at h; simp [List.isPrefixOf] at h
  | cons a t =>
    cases t with
    | nil => rw [hs] at h; simp [List.isPrefixOf] at h
    | cons b t2 =>
      rw [hs] at h
      simp [List.isPrefixOf] at h ⊢
      rintro rfl hb
      rw [← hb] at h
      exact absurd h.2 (by decide)

/-- A missing `custom:language_preference`, or one whose lowercasing starts
with `en`, makes the computed user language start with `en`. -/
lemma userLanguage_en {e : CognitoEvent}
    (h : e.request.userAttributes.languagePreference = none ∨
      ∃ v, e.request.userAttributes.languagePreference = some v ∧
        jsStartsWith (jsToLower v) "en" = true) :
    jsStartsWith (userLanguageOf e) "en" = true := by
  rcases h with h | ⟨v, hv, hsw⟩
  · rw [userLanguageOf, h]
    decide
  · by_cases hv0 : v = ""
    · subst hv0
      exact absurd hsw (by decide)
    · rw [userLanguageOf, hv]
      simp [jsOrDefault, hv0]
      exact hsw

/-- C8 counterexample: a ForgotPassword event lacking the `email` attribute and
lacking a language preference satisfies the claim's hypotheses, yet the first
implementation throws a TypeError from `Buffer.from(undefined)` instead of
returning the event with the English template set; the second does not throw. -/
theorem handler1_throws_on_missing_email :
    handler1 sampleForgotNoEmail = Except.error "TypeError: Buffer.from received undefined" ∧
    isThrown (handler2 sampleForgotNoEmail) = false :=
  ⟨rfl, rfl⟩

/-- C8 (amended): for a SignUp or ForgotPassword event whose `userAttributes`
lack `custom:language_preference` or whose value starts with `en` after
lowercasing — and which, for ForgotPassword, carries an `email` attribute —
both handler implementations return the event with the English email template
(code parameter substituted) and the matching English subject. -/
theorem handlers_set_english_template (e : CognitoEvent)
    (hlang : e.request.userAttributes.languagePreference = none ∨
      ∃ v, e.request.userAttributes.languagePreference = some v ∧
        jsStartsWith (jsToLower v) "en" = true)
    (hemail : e.triggerSource = "CustomMessage_ForgotPassword" →
      e.request.userAttributes.email ≠ none) :
    (e.triggerSource = "CustomMessage_SignUp" →
      handler1 e = Except.ok (setEmail e
        (verifyEmailEnglishTemplate.replace verifyCodeToken e.request.codeParameter)
        "Verification code") ∧
      handler2 e = Except.ok (setEmail e
        (templatesEn.verificationBody.replace verifyCodeToken e.request.codeParameter)
        "Verification code")) ∧
    (e.triggerSource = "CustomMessage_ForgotPassword" →
      handler1 e = Except.ok (setEmail e
        (forgotPasswordEnglishTemplate.replace verifyCodeToken e.request.codeParameter)
        "Reset your ChartWise password") ∧
      handler2 e = Except.ok (setEmail e
        (templatesEn.forgotPasswordBody.replace verifyCodeToken e.request.codeParameter)
        "Reset your ChartWise password")) := by
  have hen := userLanguage_en hlang
  have hes := en_not_es hen
  constructor
  · intro ht
    refine ⟨?_, ?_⟩
    · simp [handler1, ht, hen]
    · simp [handler2, ht, hes, templatesEn]
  · intro ht
    obtain ⟨em, hm⟩ := Option.ne_none_iff_exists'.mp (hemail ht)
    refine ⟨?_, ?_⟩
    · simp [handler1, ht, hen, hm]
    · simp [handler2, ht, hes, templatesEn]

/-- C8 witness: the amended theorem applied to `sampleSignUpEn`. -/
theorem handlers_set_english_template_witness :
    sampleSignUpEn.request.userAttributes.languagePreference = none ∧
    sampleSignUpEn.triggerSource = "CustomMessage_SignUp" ∧
    (handler1 sampleSignUpEn = Except.ok (setEmail sampleSignUpEn
       (verifyEmailEnglishTemplate.replace verifyCodeToken sampleSignUpEn.request.codeParameter)
       "Verification code") ∧
     handler2 sampleSignUpEn = Except.ok (setEmail sampleSignUpEn
       (templatesEn.verificationBody.replace verifyCodeToken sampleSignUpEn.request.codeParameter)
       "Verification code")) :=
  ⟨rfl, rfl,
    (handlers_set_english_template sampleSignUpEn (Or.inl rfl)
      (fun h => absurd h (by decide))).1 rfl⟩

/-- C9 counterexample: for a SignUp event with language preference `fr`, the
first implementation throws while the second silently falls back to English —
the two implementations disagree on whether an error is thrown. -/
theorem handlers_disagree_on_unknown_language :
    isThrown (handler1 sampleSignUpFr) = true ∧
    isThrown (handler2 sampleSignUpFr) = false ∧
    subjectOf (handler2 sampleSignUpFr) = some "Verification code" :=
  ⟨rfl, rfl, rfl⟩

/-- C9 (amended): the two implementations agree on the assigned `emailSubject`
and on whether an error is thrown whenever the computed user language starts
with `en` or `es` and, for ForgotPassword events, the `email` attribute is
present — and also for every event whose trigger source is neither
SignUp nor ForgotPassword. They disagree when a SignUp/ForgotPassword event
carries a language starting with neither prefix (the first throws, the second
defaults to English), and on ForgotPassword events without `email` (the first
throws a TypeError). -/
theorem handlers_agree_on_supported_inputs (e : CognitoEvent)
    (h : ((jsStartsWith (userLanguageOf e) "en" = true ∨
           jsStartsWith (userLanguageOf e) "es" = true) ∧
          (e.triggerSource = "CustomMessage_ForgotPassword" →
            e.request.userAttributes.email ≠ none)) ∨
         (e.triggerSource ≠ "CustomMessage_SignUp" ∧
          e.triggerSource ≠ "CustomMessage_ForgotPassword")) :
    isThrown (handler1 e) = isThrown (handler2 e) ∧
    subjectOf (handler1 e) = subjectOf (handler2 e) := by
  rcases h with ⟨hlang, hemail⟩ | ⟨h1, h2⟩
  · by_cases ht1 : e.triggerSource = "CustomMessage_SignUp"
    · rcases hlang with hen | hes
      · have hes0 := en_not_es hen
        exact ⟨by simp [handler1, handler2, ht1, hen, hes0, isThrown],
               by simp [handler1, handler2, ht1, hen, hes0, subjectOf, setEmail, templatesEn]⟩
      · have hen0 := es_not_en hes
        exact ⟨by simp [handler1, handler2, ht1, hes, hen0, isThrown],
               by simp [handler1, handler2, ht1, hes, hen0, subjectOf, setEmail, templatesEs]⟩
    · by_cases ht2 : e.triggerSource = "CustomMessage_ForgotPassword"
      · obtain ⟨em, hm⟩ := Option.ne_none_iff_exists'.mp (hemail ht2)
        rcases hlang with hen | hes
        · have hes0 := en_not_es hen
          exact ⟨by simp [handler1, handler2, ht1, ht2, hen, hes0, hm, isThrown],
                 by simp [handler1, handler2, ht1, ht2, hen, hes0, hm, subjectOf, setEmail, templatesEn]⟩
        · have hen0 := es_not_en hes
          exact ⟨by simp [handler1, handler2, ht1, ht2, hes, hen0, hm, isThrown],
                 by simp [handler1, handler2, ht1, ht2, hes, hen0, hm, subjectOf, setEmail, templatesEs]⟩
      · exact ⟨by simp [handler1, handler2, ht1, ht2, isThrown],
               by simp [handler1, handler2, ht1, ht2, subjectOf]⟩
  · exact ⟨by simp [handler1, handler2, h1, h2, isThrown],
           by simp [handler1, handler2, h1, h2, subjectOf]⟩

/-- C9 witness: the amended agreement theorem applied to `sampleForgotEn`. -/
theorem handlers_agree_on_supported_inputs_witness :
    jsStartsWith (userLanguageOf sampleForgotEn) "en" = true ∧
    sampleForgotEn.request.userAttributes.email ≠ none ∧
    (isThrown (handler1 sampleForgotEn) = isThrown (handler2 sampleForgotEn) ∧
     subjectOf (handler1 sampleForgotEn) = subjectOf (handler2 sampleForgotEn)) :=
  ⟨by decide, by decide,
    handlers_agree_on_supported_inputs sampleForgotEn
      (Or.inl ⟨Or.inl (by decide), fun _ => by decide⟩)⟩

/-- C10: on a trigger source that is neither `CustomMessage_SignUp` nor
`CustomMessage_ForgotPassword`, both implementations return the event
unchanged — no subject or message assigned and no error thrown. -/
theorem handlers_skip_unsupported_trigger (e : CognitoEvent)
    (h1 : e.triggerSource ≠ "CustomMessage_SignUp")
    (h2 : e.triggerSource ≠ "CustomMessage_ForgotPassword") :
    handler1 e = Except.ok e ∧ handler2 e = Except.ok e := by
  exact ⟨by simp [handler1, h1, h2], by simp [handler2, h1, h2]⟩

/-- C10 witness: the frame theorem applied to `sampleAdminCreate`. -/
theorem handlers_skip_unsupported_trigger_witness :
    sampleAdminCreate.triggerSource ≠ "CustomMessage_SignUp" ∧
    sampleAdminCreate.triggerSource ≠ "CustomMessage_ForgotPassword" ∧
    (handler1 sampleAdminCreate = Except.ok sampleAdminCreate ∧
     handler2 sampleAdminCreate = Except.ok sampleAdminCreate) :=
  ⟨by decide, by decide,
    handlers_skip_unsupported_trigger sampleAdminCreate (by decide) (by decide)⟩

end I18n
end ChartWise

namespace ChartWise
namespace Pipeline

/-- Membership in `range' 1 n` is exactly the interval `[1, n]`. -/
lemma mem_range_one {m n : Nat} : m ∈ List.range' 1 n ↔ 1 ≤ m ∧ m ≤ n := by
  rw [List.mem_range']
  constructor
  · rintro ⟨i, hi, rfl⟩
    omega
  · rintro ⟨h1, h2⟩
    exact ⟨m - 1, by omega, by omega⟩

/-- Every emitted event's sequence lies in `[1, lastSeq]`. -/
lemma seq_bounds {env : GateEnv} {s : PState} (inv : Inv env s) {ev : ChangeEvent}
    (h : ev ∈ s.emitted) : 1 ≤ ev.sequence ∧ ev.sequence ≤ s.lastSeq := by
  have hm : ev.sequence ∈ s.emitted.map (·.sequence) := List.mem_map_of_mem _ h
  rw [inv.emittedSeq] at hm
  exact mem_range_one.mp hm

/-- Unfolding of the eligibility test. -/
lemma relevantB_iff {sub : Subscriber} {ev : ChangeEvent} :
    relevantB sub ev = true ↔
      sub.tenant_id = ev.tenant_id ∧ ev.patient_id ∈ sub.authorized_patient_ids := by
  simp [relevantB, List.contains, List.elem_iff]


/-- Routing only ever appends to the outbound queue. -/
lemma routeToConn_base (env : GateEnv) (ev : ChangeEvent) (c : Conn) :
    (routeToConn env ev c).base = c.base := by
  rw [routeToConn]; split <;> rfl

/-- A fresh task for an eligible subscriber is well formed. -/
lemma taskOK_mk {env : GateEnv} {ev : ChangeEvent} {sub : Subscriber}
    (h : relevantB sub ev = true) : taskOK env (mkTask env ev sub) := by
  obtain ⟨h1, h2⟩ := relevantB_iff.mp h
  exact ⟨h2, h1, rfl⟩

/-- Appending a strictly larger element preserves strict sortedness. -/
lemma pairwise_concat {l : List Nat} {n : Nat} (hl : List.Pairwise (· < ·) l)
    (hb : ∀ x ∈ l, x < n) : List.Pairwise (· < ·) (l ++ [n]) := by
  rw [List.pairwise_append]
  refine ⟨hl, List.pairwise_singleton _ _, fun a ha b hb2 => ?_⟩
  rw [List.mem_singleton.mp hb2]
  exact hb a ha

/-- All events a connection holds (delivered or queued) were emitted. -/
lemma combined_mem_emitted {env : GateEnv} {s : PState} (inv : Inv env s) {c : Conn}
    (hc : c ∈ s.conns) : ∀ x ∈ c.delivered ++ c.queue.map (·.event), x ∈ s.emitted := by
  intro x hx
  rcases List.mem_append.mp hx with h | h
  · exact (inv.connEvents c hc).2 x h
  · obtain ⟨t, ht, rfl⟩ := List.mem_map.mp h
    exact (inv.connEvents c hc).1 t ht

/-- A fresh sequence number is not yet retained, so append really appends. -/
lemma append_backlog_eq {env : GateEnv} {s : PState} (inv : Inv env s) {ev : ChangeEvent}
    (hseq : ev.sequence = s.lastSeq + 1) :
    appendEntry s.backlog (scopeOf ev) ev = s.backlog ++ [⟨scopeOf ev, ev.sequence, ev⟩] := by
  have hany : ((entriesFor s.backlog (scopeOf ev)).any fun b => b.sequence == ev.sequence) = false := by
    rw [List.any_eq_false]
    intro b hb
    have hbmem : b ∈ s.backlog := List.mem_of_mem_filter hb
    have hwf := inv.backlogWF b hbmem
    have hbound := (seq_bounds inv hwf.1).2
    simp only [beq_iff_eq]
    omega
  rw [appendEntry, hany]
  simp

/-- Ingesting a fresh event preserves the invariant. -/
lemma inv_ingestEvent {env : GateEnv} {s : PState} (inv : Inv env s) {ev : ChangeEvent}
    (hseq : ev.sequence = s.lastSeq + 1) :
    Inv env (ingestEvent env ev s) := by
  have hA := append_backlog_eq inv hseq
  have hseqle : ∀ e2 ∈ s.emitted, e2.sequence < ev.sequence := by
    intro e2 he2
    have := (seq_bounds inv he2).2
    omega
  refine ⟨?_, ?_, ?_, ?_, ?_, ?_, ?_, ?_, ?_, ?_, ?_⟩
  · -- tasksOK
    intro t ht
    rcases List.mem_append.mp ht with h | h
    · exact inv.tasksOK t h
    · obtain ⟨c, hc, rfl⟩ := List.mem_map.mp h
      have helig : isEligible c ev = true := (List.mem_filter.mp hc).2
      exact taskOK_mk ((Bool.and_eq_true _ _).mp helig).2
  · -- queueOK
    intro c2 hc2 t ht
    obtain ⟨c, hc, rfl⟩ := List.mem_map.mp hc2
    by_cases helig : isEligible c ev = true
    · simp only [routeToConn, if_pos helig] at ht
      rcases List.mem_append.mp ht with h | h
      · exact inv.queueOK c hc t h
      · rw [List.mem_singleton.mp h]
        exact taskOK_mk ((Bool.and_eq_true _ _).mp helig).2
    · simp only [routeToConn, if_neg helig] at ht
      exact inv.queueOK c hc t ht
  · -- emittedSeq
    show (s.emitted ++ [ev]).map (·.sequence) = List.range' 1 (s.lastSeq + 1)
    rw [List.map_append, inv.emittedSeq, List.range'_concat]
    simp
    omega
  · -- backlogWF
    intro b hb
    rw [show (ingestEvent env ev s).backlog = _ from hA] at hb
    rcases List.mem_append.mp hb with h | h
    · obtain ⟨h1, h2, h3⟩ := inv.backlogWF b h
      exact ⟨List.mem_append_left _ h1, h2, h3⟩
    · rw [List.mem_singleton.mp h]
      exact ⟨List.mem_append_right _ (List.mem_singleton_self _), rfl, rfl⟩
  · -- backlogSub
    show List.Sublist ((appendEntry s.backlog (scopeOf ev) ev).map (·.event)) (s.emitted ++ [ev])
    rw [hA, List.map_append]
    exact List.Sublist.append inv.backlogSub (List.Sublist.refl _)
  · -- backlogSorted
    show List.Pairwise (· < ·) ((appendEntry s.backlog (scopeOf ev) ev).map (·.sequence))
    rw [hA, List.map_append]
    refine pairwise_concat inv.backlogSorted ?_
    intro x hx
    obtain ⟨b, hb, rfl⟩ := List.mem_map.mp hx
    obtain ⟨h1, h2, _⟩ := inv.backlogWF b hb
    rw [h2]
    exact hseqle _ h1
  · -- connEvents
    intro c2 hc2
    obtain ⟨c, hc, rfl⟩ := List.mem_map.mp hc2
    obtain ⟨hq, hd⟩ := inv.connEvents c hc
    by_cases helig : isEligible c ev = true
    · simp only [routeToConn, if_pos helig]
      refine ⟨?_, fun e he => List.mem_append_left _ (hd e he)⟩
      intro t ht
      rcases List.mem_append.mp ht with h | h
      · exact List.mem_append_left _ (hq t h)
      · rw [List.mem_singleton.mp h]
        exact List.mem_append_right _ (List.mem_singleton_self _)
    · simp only [routeToConn, if_neg helig]
      exact ⟨fun t ht => List.mem_append_left _ (hq t ht),
        fun e he => List.mem_append_left _ (hd e he)⟩
  · -- connSorted
    intro c2 hc2
    obtain ⟨c, hc, rfl⟩ := List.mem_map.mp hc2
    by_cases helig : isEligible c ev = true
    · simp only [routeToConn, if_pos helig]
      have : c.delivered ++ (c.queue ++ [mkTask env ev c.sub]).map (·.event) =
          (c.delivered ++ c.queue.map (·.event)) ++ [ev] := by
        simp [mkTask]
      rw [this, List.map_append]
      refine pairwise_concat (inv.connSorted c hc) ?_
      intro x hx
      obtain ⟨e, he, rfl⟩ := List.mem_map.mp hx
      exact hseqle _ (combined_mem_emitted inv hc e he)
    · simp only [routeToConn, if_neg helig]
      exact inv.connSorted c hc
  · -- connComplete
    intro c2 hc2 hlive hcu
    obtain ⟨c, hc, rfl⟩ := List.mem_map.mp hc2
    by_cases helig : isEligible c ev = true
    · have hlv : c.live = true := ((Bool.and_eq_true _ _).mp helig).1
      have hrel : relevantB c.sub ev = true := ((Bool.and_eq_true _ _).mp helig).2
      simp only [routeToConn, if_pos helig] at hcu ⊢
      have hcomp := inv.connComplete c hc hlv hcu
      have hbase : c.base ≤ s.lastSeq := inv.baseBound c hc hcu
      show c.delivered ++ (c.queue ++ [mkTask env ev c.sub]).map (·.event) =
        eventsAfter (s.emitted ++ [ev]) c.sub c.base
      rw [eventsAfter, List.filter_append]
      have hkeep : List.filter (fun e => relevantB c.sub e && decide (c.base < e.sequence)) [ev] = [ev] := by
        simp [hrel]
        omega
      rw [hkeep]
      rw [show List.filter (fun e => relevantB c.sub e && decide (c.base < e.sequence)) s.emitted =
        eventsAfter s.emitted c.sub c.base from rfl]
      rw [← hcomp]
      simp [mkTask]
    · simp only [routeToConn, if_neg helig] at hlive hcu ⊢
      have hcomp := inv.connComplete c hc hlive hcu
      have hrel : relevantB c.sub ev = false := by
        have heligf : isEligible c ev = false := by simpa using helig
        rw [isEligible, hlive] at heligf
        simpa using heligf
      show c.delivered ++ c.queue.map (·.event) = eventsAfter (s.emitted ++ [ev]) c.sub c.base
      rw [eventsAfter, List.filter_append]
      have hdrop : List.filter (fun e => relevantB c.sub e && decide (c.base < e.sequence)) [ev] = [] := by
        simp [hrel]
      rw [hdrop]
      rw [show List.filter (fun e => relevantB c.sub e && decide (c.base < e.sequence)) s.emitted =
        eventsAfter s.emitted c.sub c.base from rfl]
      simp [← hcomp]
  · -- baseBound
    intro c2 hc2 hcu
    obtain ⟨c, hc, rfl⟩ := List.mem_map.mp hc2
    show (routeToConn env ev c).base ≤ s.lastSeq + 1
    rw [routeToConn_base]
    by_cases helig : isEligible c ev = true
    · simp only [routeToConn, if_pos helig] at hcu
      have := inv.baseBound c hc hcu
      omega
    · simp only [routeToConn, if_neg helig] at hcu
      have := inv.baseBound c hc hcu
      omega
  · -- resyncInert
    intro c2 hc2 hrs
    obtain ⟨c, hc, rfl⟩ := List.mem_map.mp hc2
    by_cases helig : isEligible c ev = true
    · have hlv : c.live = true := ((Bool.and_eq_true _ _).mp helig).1
      simp only [routeToConn, if_pos helig] at hrs ⊢
      have := inv.resyncInert c hc hrs
      rw [this.1] at hlv
      cases hlv
    · simp only [routeToConn, if_neg helig] at hrs ⊢
      exact inv.resyncInert c hc hrs

/-- Ingest preserves the invariant. -/
lemma inv_ingest {env : GateEnv} {s : PState} (inv : Inv env s) (m : UpstreamMsg) :
    Inv env (ingest env m s) := by
  cases m with
  | malformed raw =>
    exact ⟨inv.tasksOK, inv.queueOK, inv.emittedSeq, inv.backlogWF, inv.backlogSub,
      inv.backlogSorted, inv.connEvents, inv.connSorted, inv.connComplete,
      inv.baseBound, inv.resyncInert⟩
  | changed ek ei tn pt oa pl enc =>
    exact inv_ingestEvent inv rfl



/-- Delivering the queue head leaves the combined delivered-then-queued
event list unchanged. -/
lemma deliverConn_combined (c : Conn) :
    (deliverConn c).delivered ++ (deliverConn c).queue.map (·.event) =
      c.delivered ++ c.queue.map (·.event) := by
  rcases hq : c.queue with _ | ⟨t, rest⟩ <;> simp [deliverConn, hq]

/-- Delivery does not change liveness, resync status, base or the ghost flag. -/
lemma deliverConn_fields (c : Conn) :
    (deliverConn c).live = c.live ∧ (deliverConn c).resync_required = c.resync_required ∧
    (deliverConn c).base = c.base ∧ (deliverConn c).caughtUp = c.caughtUp := by
  rcases hq : c.queue with _ | ⟨t, rest⟩ <;> simp [deliverConn, hq]

/-- Delivery only advances the cursor, which eligibility ignores. -/
lemma eventsAfter_deliverConn (emitted : List ChangeEvent) (c : Conn) (b : Nat) :
    eventsAfter emitted (deliverConn c).sub b = eventsAfter emitted c.sub b := by
  rcases hq : c.queue with _ | ⟨t, rest⟩ <;> simp [deliverConn, hq, eventsAfter, relevantB]

/-- Whatever remains queued after a delivery was queued before. -/
lemma deliverConn_queue_subset (c : Conn) :
    ∀ t ∈ (deliverConn c).queue, t ∈ c.queue := by
  intro t ht
  rcases hq : c.queue with _ | ⟨t0, rest⟩
  · have hid : deliverConn c = c := by rw [deliverConn, hq]
    rw [hid, hq] at ht
    simpa using ht
  · rw [deliverConn, hq] at ht
    exact List.mem_cons_of_mem _ ht

/-- Whatever is delivered after a delivery was delivered or queued before. -/
lemma deliverConn_delivered_subset (c : Conn) :
    ∀ e ∈ (deliverConn c).delivered, e ∈ c.delivered ∨ ∃ t ∈ c.queue, t.event = e := by
  intro e he
  rcases hq : c.queue with _ | ⟨t0, rest⟩
  · have hid : deliverConn c = c := by rw [deliverConn, hq]
    rw [hid] at he
    exact Or.inl he
  · rw [deliverConn, hq] at he
    rcases List.mem_append.mp he with h | h
    · exact Or.inl h
    · exact Or.inr ⟨t0, List.mem_cons_self _ _, (List.mem_singleton.mp h).symm⟩

/-- Delivery preserves the invariant. -/
lemma inv_deliver {env : GateEnv} {s : PState} (inv : Inv env s) (cid : Nat) :
    Inv env (deliver cid s) := by
  have hmem : ∀ c2 ∈ (deliver cid s).conns, ∃ c ∈ s.conns,
      c2 = deliverConn c ∨ c2 = c := by
    intro c2 hc2
    obtain ⟨c, hc, rfl⟩ := List.mem_map.mp hc2
    exact ⟨c, hc, by by_cases hid : (c.sub.connection_id == cid) = true <;> simp [hid]⟩
  refine ⟨inv.tasksOK, ?_, inv.emittedSeq, inv.backlogWF, inv.backlogSub, inv.backlogSorted,
    ?_, ?_, ?_, ?_, ?_⟩
  · -- queueOK
    intro c2 hc2 t ht
    obtain ⟨c, hc, hcase | hcase⟩ := hmem c2 hc2
    · exact inv.queueOK c hc t (deliverConn_queue_subset c t (hcase ▸ ht))
    · exact inv.queueOK c hc t (hcase ▸ ht)
  · -- connEvents
    intro c2 hc2
    obtain ⟨c, hc, hcase | hcase⟩ := hmem c2 hc2
    · subst hcase
      refine ⟨fun t ht => (inv.connEvents c hc).1 t (deliverConn_queue_subset c t ht), ?_⟩
      intro e he
      rcases deliverConn_delivered_subset c e he with h | ⟨t, ht, rfl⟩
      · exact (inv.connEvents c hc).2 e h
      · exact (inv.connEvents c hc).1 t ht
    · rw [hcase]
      exact inv.connEvents c hc
  · -- connSorted
    intro c2 hc2
    obtain ⟨c, hc, hcase | hcase⟩ := hmem c2 hc2
    · subst hcase
      rw [deliverConn_combined]
      exact inv.connSorted c hc
    · rw [hcase]
      exact inv.connSorted c hc
  · -- connComplete
    intro c2 hc2 hlive hcu
    obtain ⟨c, hc, hcase | hcase⟩ := hmem c2 hc2
    · subst hcase
      rw [(deliverConn_fields c).1] at hlive
      rw [(deliverConn_fields c).2.2.2] at hcu
      rw [deliverConn_combined, (deliverConn_fields c).2.2.1, eventsAfter_deliverConn]
      exact inv.connComplete c hc hlive hcu
    · rw [hcase] at hlive hcu ⊢
      exact inv.connComplete c hc hlive hcu
  · -- baseBound
    intro c2 hc2 hcu
    obtain ⟨c, hc, hcase | hcase⟩ := hmem c2 hc2
    · subst hcase
      rw [(deliverConn_fields c).2.2.2] at hcu
      rw [(deliverConn_fields c).2.2.1]
      exact inv.baseBound c hc hcu
    · rw [hcase] at hcu ⊢
      exact inv.baseBound c hc hcu
  · -- resyncInert
    intro c2 hc2 hrs
    obtain ⟨c, hc, hcase | hcase⟩ := hmem c2 hc2
    · subst hcase
      rw [(deliverConn_fields c).2.1] at hrs
      obtain ⟨h1, h2, h3⟩ := inv.resyncInert c hc hrs
      rw [show deliverConn c = c from by rw [deliverConn, h2]]
      exact ⟨h1, h2, h3⟩
    · rw [hcase] at hrs ⊢
      exact inv.resyncInert c hc hrs

/-- Disconnect preserves the invariant. -/
lemma inv_disconnect {env : GateEnv} {s : PState} (inv : Inv env s) (cid : Nat) :
    Inv env (disconnect cid s) := by
  have hmem : ∀ c ∈ (disconnect cid s).conns, c ∈ s.conns :=
    fun c hc => List.mem_of_mem_filter hc
  exact ⟨inv.tasksOK, fun c hc => inv.queueOK c (hmem c hc), inv.emittedSeq, inv.backlogWF,
    inv.backlogSub, inv.backlogSorted, fun c hc => inv.connEvents c (hmem c hc),
    fun c hc => inv.connSorted c (hmem c hc),
    fun c hc => inv.connComplete c (hmem c hc),
    fun c hc => inv.baseBound c (hmem c hc),
    fun c hc => inv.resyncInert c (hmem c hc)⟩

/-- Eviction preserves the invariant. -/
lemma inv_evict {env : GateEnv} {s : PState} (inv : Inv env s) (k : String) :
    Inv env (evictOldest k s) := by
  rcases heq : earliestRetained s.backlog k with _ | m
  · simp only [evictOldest, heq]
    exact inv
  · simp only [evictOldest, heq]
    have hsub : List.Sublist
        (s.backlog.filter fun b => !(b.subscriber_scope_key == k && b.sequence == m)) s.backlog :=
      List.filter_sublist _
    exact ⟨inv.tasksOK, inv.queueOK, inv.emittedSeq,
      fun b hb => inv.backlogWF b (List.mem_of_mem_filter hb),
      List.Sublist.trans (List.Sublist.map _ hsub) inv.backlogSub,
      List.Pairwise.sublist (List.Sublist.map _ hsub) inv.backlogSorted,
      inv.connEvents, inv.connSorted, inv.connComplete, inv.baseBound, inv.resyncInert⟩



/-- The ghost coverage check implies the cursor does not run ahead of the source. -/
lemma replayCovers_le {s : PState} {sub : Subscriber} {cursor : Nat}
    (h : replayCovers s sub cursor = true) : cursor ≤ s.lastSeq := by
  have h2 := ((Bool.and_eq_true _ _).mp h).2
  simpa using h2

/-- The ghost coverage check means every missed relevant event is retained. -/
lemma replayCovers_retained {s : PState} {sub : Subscriber} {cursor : Nat}
    (h : replayCovers s sub cursor = true) :
    ∀ ev ∈ s.emitted, relevantB sub ev = true → cursor < ev.sequence →
      ev ∈ s.backlog.map (·.event) := by
  intro ev hev hrel hlt
  have hall := ((Bool.and_eq_true _ _).mp h).1
  rw [List.all_eq_true] at hall
  have hthis := hall ev hev
  rw [hrel] at hthis
  simp only [decide_eq_true hlt, Bool.and_self, Bool.not_true, Bool.false_or] at hthis
  obtain ⟨b, hb, hbe⟩ := List.any_eq_true.mp hthis
  rw [List.mem_map]
  exact ⟨b, hb, by simpa using hbe⟩

/-- Every replayed event is relevant and strictly after the cursor. -/
lemma missedFor_rel {env : GateEnv} {s : PState} (inv : Inv env s)
    {sub : Subscriber} {cursor : Nat} :
    ∀ ev ∈ missedFor s.backlog sub cursor,
      relevantB sub ev = true ∧ cursor < ev.sequence ∧ ev ∈ s.emitted := by
  intro ev hev
  rw [missedFor] at hev
  obtain ⟨b, hb, rfl⟩ := List.mem_map.mp hev
  obtain ⟨hbmem, hcond⟩ := List.mem_filter.mp hb
  obtain ⟨h1, h2⟩ := (Bool.and_eq_true _ _).mp hcond
  obtain ⟨hemit, hbseq, _⟩ := inv.backlogWF b hbmem
  refine ⟨h1, ?_, hemit⟩
  have := of_decide_eq_true h2
  omega

/-- The replayed queue is strictly sorted by sequence. -/
lemma missedFor_sorted {env : GateEnv} {s : PState} (inv : Inv env s)
    {sub : Subscriber} {cursor : Nat} :
    List.Pairwise (· < ·) ((missedFor s.backlog sub cursor).map (·.sequence)) := by
  rw [missedFor, List.map_map]
  have hcong : (s.backlog.filter fun b => relevantB sub b.event && decide (cursor < b.sequence)).map
        ((fun ev => ev.sequence) ∘ (fun b => b.event)) =
      (s.backlog.filter fun b => relevantB sub b.event && decide (cursor < b.sequence)).map
        (fun b => b.sequence) := by
    apply List.map_congr_left
    intro b hb
    exact ((inv.backlogWF b (List.mem_of_mem_filter hb)).2.1).symm
  rw [hcong]
  exact List.Pairwise.sublist (List.Sublist.map _ (List.filter_sublist _)) inv.backlogSorted

/-- When the cursor is within the retention window, the replayed events are
exactly the relevant emitted events after the cursor, in order. -/
lemma missed_eq_eventsAfter {env : GateEnv} {s : PState} (inv : Inv env s)
    {sub : Subscriber} {cursor : Nat} (hcov : replayCovers s sub cursor = true) :
    missedFor s.backlog sub cursor = eventsAfter s.emitted sub cursor := by
  have hpred : ∀ b ∈ s.backlog,
      (relevantB sub b.event && decide (cursor < b.sequence)) =
      ((fun ev => relevantB sub ev && decide (cursor < ev.sequence)) ∘ (fun b => b.event)) b := by
    intro b hb
    have h2 := (inv.backlogWF b hb).2.1
    simp only [Function.comp]
    rw [h2]
  have h1 : missedFor s.backlog sub cursor =
      (s.backlog.map (·.event)).filter
        (fun ev => relevantB sub ev && decide (cursor < ev.sequence)) := by
    rw [missedFor, List.filter_congr hpred, ← List.filter_map]
  rw [h1, eventsAfter]
  have hXY : List.Sublist
      ((s.backlog.map (·.event)).filter
        (fun ev => relevantB sub ev && decide (cursor < ev.sequence)))
      (s.emitted.filter (fun ev => relevantB sub ev && decide (cursor < ev.sequence))) :=
    List.Sublist.filter _ inv.backlogSub
  have hYX : (s.emitted.filter (fun ev => relevantB sub ev && decide (cursor < ev.sequence))) ⊆
      ((s.backlog.map (·.event)).filter
        (fun ev => relevantB sub ev && decide (cursor < ev.sequence))) := by
    intro ev hev
    obtain ⟨hmem, hcond⟩ := List.mem_filter.mp hev
    obtain ⟨hrel, hlt⟩ := (Bool.and_eq_true _ _).mp hcond
    have hret := replayCovers_retained hcov ev hmem hrel (of_decide_eq_true hlt)
    exact List.mem_filter.mpr ⟨hret, hcond⟩
  have hnodupE : s.emitted.Nodup := by
    have hr : (s.emitted.map (·.sequence)).Nodup := by
      rw [inv.emittedSeq]
      exact List.nodup_range' _ _
    exact List.Nodup.of_map _ hr
  have hlen := (List.subperm_of_subset (List.Nodup.filter _ hnodupE) hYX).length_le
  exact List.Sublist.eq_of_length_le hXY hlen

/-- Connect preserves the invariant. -/
lemma inv_connect {env : GateEnv} {s : PState} (inv : Inv env s)
    (sub : Subscriber) (cursor : Nat) :
    Inv env (connect env sub cursor s) := by
  by_cases hgap : gapFreeFor s.backlog sub cursor = true
  · simp only [connect, if_pos hgap]
    refine ⟨?_, ?_, inv.emittedSeq, inv.backlogWF, inv.backlogSub, inv.backlogSorted,
      ?_, ?_, ?_, ?_, ?_⟩
    · -- tasksOK
      intro t ht
      rcases List.mem_append.mp ht with h | h
      · exact inv.tasksOK t h
      · obtain ⟨ev, hev, rfl⟩ := List.mem_map.mp h
        exact taskOK_mk (missedFor_rel inv ev hev).1
    · -- queueOK
      intro c2 hc2 t ht
      rcases List.mem_append.mp hc2 with h | h
      · exact inv.queueOK c2 h t ht
      · rw [List.mem_singleton.mp h] at ht
        obtain ⟨ev, hev, rfl⟩ := List.mem_map.mp ht
        exact taskOK_mk (missedFor_rel inv ev hev).1
    · -- connEvents
      intro c2 hc2
      rcases List.mem_append.mp hc2 with h | h
      · exact inv.connEvents c2 h
      · rw [List.mem_singleton.mp h]
        refine ⟨?_, by intro e he; cases he⟩
        intro t ht
        obtain ⟨ev, hev, rfl⟩ := List.mem_map.mp ht
        exact (missedFor_rel inv ev hev).2.2
    · -- connSorted
      intro c2 hc2
      rcases List.mem_append.mp hc2 with h | h
      · exact inv.connSorted c2 h
      · rw [List.mem_singleton.mp h]
        have hms := @missedFor_sorted env s inv sub cursor
        show List.Pairwise (· < ·)
          ((([] : List ChangeEvent) ++
            ((missedFor s.backlog sub cursor).map (fun ev => mkTask env ev sub)).map
              (fun t => t.event)).map (fun e => e.sequence))
        rw [List.nil_append, List.map_map, List.map_map]
        have hid : (((fun e : ChangeEvent => e.sequence) ∘ fun t : DeliveryTask => t.event) ∘
            fun ev => mkTask env ev sub) = fun e : ChangeEvent => e.sequence := rfl
        rw [hid]
        exact hms
    · -- connComplete
      intro c2 hc2 hlive hcu
      rcases List.mem_append.mp hc2 with h | h
      · exact inv.connComplete c2 h hlive hcu
      · rw [List.mem_singleton.mp h] at hlive hcu ⊢
        have hcov : replayCovers s sub cursor = true := hcu
        have hme := missed_eq_eventsAfter inv hcov
        show ([] : List ChangeEvent) ++
            ((missedFor s.backlog sub cursor).map (fun ev => mkTask env ev sub)).map
              (fun t => t.event) = _
        rw [List.nil_append, List.map_map]
        have hid : ((fun t : DeliveryTask => t.event) ∘ fun ev => mkTask env ev sub) =
            fun ev : ChangeEvent => ev := rfl
        rw [hid, List.map_id']
        exact hme
    · -- baseBound
      intro c2 hc2 hcu
      rcases List.mem_append.mp hc2 with h | h
      · exact inv.baseBound c2 h hcu
      · rw [List.mem_singleton.mp h] at hcu ⊢
        have hcov : replayCovers s sub cursor = true := hcu
        exact replayCovers_le hcov
    · -- resyncInert
      intro c2 hc2 hrs
      rcases List.mem_append.mp hc2 with h | h
      · exact inv.resyncInert c2 h hrs
      · rw [List.mem_singleton.mp h] at hrs
        cases hrs
  · simp only [connect, if_neg hgap]
    refine ⟨inv.tasksOK, ?_, inv.emittedSeq, inv.backlogWF, inv.backlogSub, inv.backlogSorted,
      ?_, ?_, ?_, ?_, ?_⟩
    · intro c2 hc2 t ht
      rcases List.mem_append.mp hc2 with h | h
      · exact inv.queueOK c2 h t ht
      · rw [List.mem_singleton.mp h] at ht
        cases ht
    · intro c2 hc2
      rcases List.mem_append.mp hc2 with h | h
      · exact inv.connEvents c2 h
      · rw [List.mem_singleton.mp h]
        constructor
        · intro t ht
          cases ht
        · intro e he
          cases he
    · intro c2 hc2
      rcases List.mem_append.mp hc2 with h | h
      · exact inv.connSorted c2 h
      · rw [List.mem_singleton.mp h]
        exact List.Pairwise.nil
    · intro c2 hc2 hlive hcu
      rcases List.mem_append.mp hc2 with h | h
      · exact inv.connComplete c2 h hlive hcu
      · rw [List.mem_singleton.mp h] at hlive
        cases hlive
    · intro c2 hc2 hcu
      rcases List.mem_append.mp hc2 with h | h
      · exact inv.baseBound c2 h hcu
      · rw [List.mem_singleton.mp h] at hcu
        cases hcu
    · intro c2 hc2 hrs
      rcases List.mem_append.mp hc2 with h | h
      · exact inv.resyncInert c2 h hrs
      · rw [List.mem_singleton.mp h]
        exact ⟨rfl, rfl, rfl⟩

/-- The initial state satisfies the invariant. -/
lemma inv_init (env : GateEnv) : Inv env initState := by
  refine ⟨?_, ?_, rfl, ?_, List.Sublist.refl _, List.Pairwise.nil, ?_, ?_, ?_, ?_, ?_⟩ <;>
    intro x hx <;> cases hx

/-- Every reachable state satisfies the invariant. -/
lemma reachable_inv {env : GateEnv} {s : PState} (h : Reachable env s) : Inv env s := by
  induction h with
  | init => exact inv_init env
  | step hr hstep ih =>
    cases hstep with
    | ingest m s => exact inv_ingest ih m
    | deliver cid s => exact inv_deliver ih cid
    | connect sub cursor s => exact inv_connect ih sub cursor
    | disconnect cid s => exact inv_disconnect ih cid
    | evict k s => exact inv_evict ih k



/-- demo3 is reachable. -/
lemma demo3_reachable : Reachable env0 demo3 :=
  .step (.step (.step .init (.connect sub0 0 initState)) (.ingest msg1 demo1))
    (.deliver 1 demo2)

/-- demoR3 is reachable. -/
lemma demoR3_reachable : Reachable env0 demoR3 :=
  .step (.step (.step .init (.ingest msg1 initState)) (.connect sub0 0 demoR1))
    (.ingest msg2 demoR2)

/-- demoG3 is reachable. -/
lemma demoG3_reachable : Reachable env0 demoG3 :=
  .step (.step (.step .init (.ingest msg1 initState)) (.ingest msg2 demoR1))
    (.evict (scope_key "T" "P") demoG2)

/-- The filterMap underlying `viewFor` ignores elements its guard rejects. -/
lemma filterMap_eq_filter_filterMap {α β : Type} (p : α → Bool) (g : α → Option β)
    (hg : ∀ a, p a = false → g a = none) (l : List α) :
    l.filterMap g = (l.filter p).filterMap g := by
  induction l with
  | nil => rfl
  | cons a t ih =>
    by_cases hp : p a = true
    · rw [List.filterMap_cons, List.filter_cons, if_pos hp, List.filterMap_cons]
      cases hga : g a <;> rw [ih]
    · have hf : p a = false := by simpa using hp
      rw [List.filterMap_cons, hg a hf, List.filter_cons, if_neg (by simp [hf]), ih]

/-- With duplicate-free field names, a field determines its payload entry. -/
lemma snd_eq_of_nodup_keys {l : List (String × String)} (hnd : (l.map Prod.fst).Nodup)
    {f a b : String} (ha : (f, a) ∈ l) (hb : (f, b) ∈ l) : a = b := by
  induction l with
  | nil => cases ha
  | cons x t ih =>
    rw [List.map_cons] at hnd
    have hx := List.nodup_cons.mp hnd
    rcases List.mem_cons.mp ha with h1 | h1
    · rcases List.mem_cons.mp hb with h2 | h2
      · rw [← h1] at h2
        exact (Prod.mk.injEq _ _ _ _ |>.mp h2).2.symm
      · exfalso
        apply hx.1
        rw [← h1]
        exact List.mem_map.mpr ⟨(f, b), h2, rfl⟩
    · rcases List.mem_cons.mp hb with h2 | h2
      · exfalso
        apply hx.1
        rw [← h2]
        exact List.mem_map.mpr ⟨(f, a), h1, rfl⟩
      · exact ih hx.2 h1 h2

/-- A view entry always comes from a payload entry with the same field name. -/
lemma viewFor_mem {env : GateEnv} {ev : ChangeEvent} {sub : Subscriber} {f v : String}
    (hm : (f, v) ∈ viewFor env ev sub) :
    f ∈ sub.entitlement ∧ ∃ c, (f, c) ∈ ev.payload ∧
      decrypt env.keys c (env.classification f) env.key_reference = .ok v := by
  obtain ⟨fc, hfc, hg⟩ := List.mem_filterMap.mp hm
  by_cases he : fc.1 ∈ sub.entitlement
  · rw [if_pos he] at hg
    cases hd : decrypt env.keys fc.2 (env.classification fc.1) env.key_reference with
    | error e =>
      rw [hd] at hg
      cases hg
    | ok pt =>
      rw [hd] at hg
      have hfv : fc.1 = f ∧ pt = v := by
        have := Option.some.injEq _ _ ▸ hg
        exact Prod.mk.injEq _ _ _ _ |>.mp (by simpa using hg)
      obtain ⟨hf1, hv1⟩ := hfv
      subst hf1
      subst hv1
      exact ⟨he, fc.2, by simpa using hfc, hd⟩
  · rw [if_neg he] at hg
    cases hg


/-- Emitted events are pairwise distinct (their sequences are). -/
lemma emitted_nodup {env : GateEnv} {s : PState} (inv : Inv env s) : s.emitted.Nodup := by
  have hr : (s.emitted.map (·.sequence)).Nodup := by
    rw [inv.emittedSeq]
    exact List.nodup_range' _ _
  exact List.Nodup.of_map _ hr

/-- C1: in every reachable pipeline state, no DeliveryTask has ever been
constructed — neither in the construction log nor on any outbound queue — for
a subscriber whose `authorized_patient_ids` snapshot at computation time
excludes the event's `patient_id`. -/
theorem no_unauthorized_delivery_task (env : GateEnv) (s : PState) (hs : Reachable env s) :
    (∀ t ∈ s.tasksLog, t.event.patient_id ∈ t.subscriber.authorized_patient_ids) ∧
    (∀ c ∈ s.conns, ∀ t ∈ c.queue, t.event.patient_id ∈ t.subscriber.authorized_patient_ids) := by
  have inv := reachable_inv hs
  exact ⟨fun t ht => (inv.tasksOK t ht).1, fun c hc t ht => (inv.queueOK c hc t ht).1⟩

/-- C1 witness: the invariant applied to a concrete three-step run whose task
log is nonempty. -/
theorem no_unauthorized_delivery_task_witness :
    Reachable env0 demo3 ∧ demo3.tasksLog.length = 1 ∧
    ((∀ t ∈ demo3.tasksLog, t.event.patient_id ∈ t.subscriber.authorized_patient_ids) ∧
     (∀ c ∈ demo3.conns, ∀ t ∈ c.queue, t.event.patient_id ∈ t.subscriber.authorized_patient_ids)) :=
  ⟨demo3_reachable, by decide, no_unauthorized_delivery_task env0 demo3 demo3_reachable⟩

/-- C2: a field outside a subscriber's entitlement never appears in a
decrypted view (neither plaintext nor ciphertext); the view depends only on
the entitled part of the payload (two-run noninterference); and in every
reachable state every constructed DeliveryTask's `decrypted_view` contains
only entitled fields. -/
theorem entitlement_confines_view (env : GateEnv) :
    (∀ (ev : ChangeEvent) (sub : Subscriber) (f v : String),
      (f, v) ∈ viewFor env ev sub → f ∈ sub.entitlement) ∧
    (∀ (ev1 ev2 : ChangeEvent) (sub : Subscriber),
      ev1.payload.filter (fun fc => decide (fc.1 ∈ sub.entitlement)) =
        ev2.payload.filter (fun fc => decide (fc.1 ∈ sub.entitlement)) →
      viewFor env ev1 sub = viewFor env ev2 sub) ∧
    (∀ s : PState, Reachable env s → ∀ t ∈ s.tasksLog, ∀ f v : String,
      (f, v) ∈ t.decrypted_view → f ∈ t.subscriber.entitlement) := by
  refine ⟨?_, ?_, ?_⟩
  · intro ev sub f v hm
    exact (viewFor_mem hm).1
  · intro ev1 ev2 sub heq
    have hview : ∀ ev : ChangeEvent, viewFor env ev sub =
        (ev.payload.filter (fun fc => decide (fc.1 ∈ sub.entitlement))).filterMap
          (fun fc =>
            if fc.1 ∈ sub.entitlement then
              match decrypt env.keys fc.2 (env.classification fc.1) env.key_reference with
              | .ok plaintext => some (fc.1, plaintext)
              | .error _ => none
            else none) := by
      intro ev
      exact filterMap_eq_filter_filterMap _ _
        (fun fc hfc => if_neg (of_decide_eq_false hfc)) _
    rw [hview ev1, hview ev2, heq]
  · intro s hs t ht f v hm
    have inv := reachable_inv hs
    rw [(inv.tasksOK t ht).2.2] at hm
    exact (viewFor_mem hm).1

/-- C2 witness: two payloads that agree on the entitled fields but differ in
the non-entitled `transcript` ciphertext produce the same decrypted view. -/
theorem entitlement_confines_view_witness :
    evA.payload.filter (fun fc => decide (fc.1 ∈ sub0.entitlement)) =
      evB.payload.filter (fun fc => decide (fc.1 ∈ sub0.entitlement)) ∧
    viewFor env0 evA sub0 = viewFor env0 evB sub0 ∧
    viewFor env0 evA sub0 = [("clinical_notes", "plain:c1")] :=
  ⟨by decide, (entitlement_confines_view env0).2.1 evA evB sub0 (by decide), by decide⟩

/-- C3: a live caught-up connection has received its scope's events in
strictly increasing sequence order (hence no duplicates); every relevant
event below an already delivered sequence has itself been delivered (no
gaps); and no task is still queued whose sequence is at or below a delivered
one — a task for sequence N is never enqueued after N+1 was sent. -/
theorem ordered_delivery (env : GateEnv) (s : PState) (hs : Reachable env s)
    (c : Conn) (hc : c ∈ s.conns) (hlive : c.live = true) (hcu : c.caughtUp = true) :
    (∀ tid pid : String, List.Pairwise (· < ·)
      ((c.delivered.filter fun ev => ev.tenant_id == tid && ev.patient_id == pid).map
        (·.sequence))) ∧
    (∀ ev ∈ s.emitted, relevantB c.sub ev = true → c.base < ev.sequence →
      (∃ d ∈ c.delivered, ev.sequence ≤ d.sequence) → ev ∈ c.delivered) ∧
    (∀ t ∈ c.queue, ∀ d ∈ c.delivered, d.sequence < t.event.sequence) := by
  have inv := reachable_inv hs
  have hsorted := inv.connSorted c hc
  rw [List.map_append] at hsorted
  have hparts := List.pairwise_append.mp hsorted
  refine ⟨?_, ?_, ?_⟩
  · intro tid pid
    refine List.Pairwise.sublist ?_ hparts.1
    exact List.Sublist.map _ (List.filter_sublist _)
  · intro ev hev hrel hbase hle
    have hcomp := inv.connComplete c hc hlive hcu
    have hin : ev ∈ c.delivered ++ c.queue.map (·.event) := by
      rw [hcomp, eventsAfter, List.mem_filter]
      refine ⟨hev, ?_⟩
      rw [hrel]
      simpa using hbase
    rcases List.mem_append.mp hin with h | h
    · exact h
    · exfalso
      obtain ⟨d, hd, hdle⟩ := hle
      have hcross := hparts.2.2 d.sequence (List.mem_map_of_mem _ hd) ev.sequence
        (List.mem_map_of_mem _ h)
      omega
  · intro t ht d hd
    exact hparts.2.2 d.sequence (List.mem_map_of_mem _ hd) t.event.sequence
      (List.mem_map_of_mem _ (List.mem_map_of_mem _ ht))

/-- C3 witness: the ordering theorem applied to the delivered connection of
the concrete run. -/
theorem ordered_delivery_witness :
    demo3Conn ∈ demo3.conns ∧ demo3Conn.live = true ∧ demo3Conn.caughtUp = true ∧
    (∀ t ∈ demo3Conn.queue, ∀ d ∈ demo3Conn.delivered, d.sequence < t.event.sequence) :=
  ⟨by decide, rfl, rfl,
    (ordered_delivery env0 demo3 demo3_reachable demo3Conn (by decide) rfl rfl).2.2⟩

/-- C4: a live connection whose connect cursor was within the backlog
retention window holds, as delivered-then-queued output, exactly the relevant
events after its cursor — the missed events followed by live events, strictly
ordered and duplicate-free. -/
theorem reconnect_replays_missed (env : GateEnv) (s : PState) (hs : Reachable env s)
    (c : Conn) (hc : c ∈ s.conns) (hlive : c.live = true) (hcu : c.caughtUp = true) :
    c.delivered ++ c.queue.map (·.event) = eventsAfter s.emitted c.sub c.base ∧
    List.Pairwise (· < ·) ((eventsAfter s.emitted c.sub c.base).map (·.sequence)) ∧
    (eventsAfter s.emitted c.sub c.base).Nodup := by
  have inv := reachable_inv hs
  have hcomp := inv.connComplete c hc hlive hcu
  refine ⟨hcomp, ?_, ?_⟩
  · rw [← hcomp]
    exact inv.connSorted c hc
  · exact List.Nodup.filter _ (emitted_nodup inv)

/-- C4 witness: the subscriber reconnects with cursor 0 after missing event 1;
its queue replays event 1 and then the live event 2, in order. -/
theorem reconnect_replays_missed_witness :
    demoRConn ∈ demoR3.conns ∧ demoRConn.live = true ∧ demoRConn.caughtUp = true ∧
    demoRConn.delivered ++ demoRConn.queue.map (·.event) =
      eventsAfter demoR3.emitted demoRConn.sub demoRConn.base ∧
    demoRConn.queue.map (·.event) = [demoEv1, demoEv2] :=
  ⟨by decide, rfl, rfl,
    (reconnect_replays_missed env0 demoR3 demoR3_reachable demoRConn (by decide) rfl rfl).1,
    by decide⟩

/-- C5: `replay` returns `ErrGapExceeded` exactly when the earliest retained
sequence for the scope exceeds `from_sequence + 1`; a connect whose cursor
falls in such a gap yields a `resync_required` connection instead of a replay
stream; and in every reachable state a resync-required connection has
received nothing — never a replay stream with holes. -/
theorem replay_gap_policy (env : GateEnv) (s : PState) (hs : Reachable env s) :
    (∀ (store : List BacklogEntry) (k : String) (from_sequence : Nat),
      replay store k from_sequence = .error .ErrGapExceeded ↔
        ∃ m, m ∈ (entriesFor store k).map (·.sequence) ∧
          (∀ n ∈ (entriesFor store k).map (·.sequence), m ≤ n) ∧ from_sequence + 1 < m) ∧
    (∀ (sub : Subscriber) (cursor : Nat),
      (∃ p ∈ sub.authorized_patient_ids,
        replay s.backlog (scope_key sub.tenant_id p) cursor = .error .ErrGapExceeded) →
      connect env sub cursor s =
        { s with conns := s.conns ++ [⟨sub, [], [], false, true, cursor, false⟩] }) ∧
    (∀ c ∈ s.conns, c.resync_required = true →
      c.live = false ∧ c.queue = [] ∧ c.delivered = []) := by
  have inv := reachable_inv hs
  refine ⟨?_, ?_, inv.resyncInert⟩
  · intro store k from_sequence
    cases heq : earliestRetained store k with
    | none =>
      have heq2 := heq
      rw [earliestRetained, List.min?_eq_none_iff] at heq2
      simp only [replay, heq]
      constructor
      · intro h
        cases h
      · rintro ⟨m, hm, _, _⟩
        rw [heq2] at hm
        cases hm
    | some m0 =>
      have heq2 := heq
      rw [earliestRetained, List.min?_eq_some_iff'] at heq2
      by_cases hlt : from_sequence + 1 < m0
      · simp only [replay, heq]
        rw [if_pos hlt]
        exact ⟨fun _ => ⟨m0, heq2.1, heq2.2, hlt⟩, fun _ => rfl⟩
      · simp only [replay, heq]
        rw [if_neg hlt]
        constructor
        · intro h
          cases h
        · rintro ⟨m, hm, hmin, hgt⟩
          exfalso
          have h1 := hmin m0 heq2.1
          have h2 := heq2.2 m hm
          omega
  · rintro sub cursor ⟨p, hp, herr⟩
    have hgap : gapFreeFor s.backlog sub cursor = false := by
      cases hb : gapFreeFor s.backlog sub cursor with
      | false => rfl
      | true =>
        exfalso
        rw [gapFreeFor, List.all_eq_true] at hb
        have := hb p hp
        rw [herr] at this
        cases this
    rw [connect, hgap]
    simp

/-- C5 witness: after evicting event 1 the earliest retained sequence is 2,
so a reconnect with cursor 0 is answered with `resync_required`. -/
theorem replay_gap_policy_witness :
    Reachable env0 demoG3 ∧
    (∃ p ∈ sub0.authorized_patient_ids,
      replay demoG3.backlog (scope_key sub0.tenant_id p) 0 =
        .error .ErrGapExceeded) ∧
    connect env0 sub0 0 demoG3 =
      { demoG3 with conns := demoG3.conns ++ [⟨sub0, [], [], false, true, 0, false⟩] } :=
  ⟨demoG3_reachable, ⟨"P", by decide, rfl⟩,
    (replay_gap_policy env0 demoG3 demoG3_reachable).2.1 sub0 0 ⟨"P", by decide, rfl⟩⟩

/-- C6: `decrypt` yields the full plaintext exactly when key resolution and
decryption both succeed — otherwise an `EncryptionError`, never a partial
value — and the Router withholds a failing field from the decrypted view
entirely: neither its plaintext nor its ciphertext nor any other value
appears under that field name. -/
theorem decrypt_fails_closed (env : GateEnv) :
    (∀ (keys : KeyService) (ciphertext fc : String) (kr : Nat) (pt : String),
      decrypt keys ciphertext fc kr = .ok pt ↔
        ∃ key, keys kr = some key ∧ key ciphertext = some pt) ∧
    (∀ (ev : ChangeEvent) (sub : Subscriber) (f c : String) (err : EncryptionError),
      (ev.payload.map Prod.fst).Nodup → (f, c) ∈ ev.payload →
      decrypt env.keys c (env.classification f) env.key_reference = .error err →
      ∀ v, (f, v) ∉ viewFor env ev sub) := by
  refine ⟨?_, ?_⟩
  · intro keys ciphertext fc kr pt
    constructor
    · intro h
      cases hk : keys kr with
      | none =>
        simp only [decrypt, hk] at h
        exact Except.noConfusion h
      | some key =>
        cases hc : key ciphertext with
        | none =>
          simp only [decrypt, hk, hc] at h
          exact Except.noConfusion h
        | some pt2 =>
          simp only [decrypt, hk, hc] at h
          injection h with h2
          rw [h2] at hc
          exact ⟨key, rfl, hc⟩
    · rintro ⟨key, hk, hc⟩
      simp only [decrypt, hk, hc]
  · intro ev sub f c err hnd hmem hdec v hv
    obtain ⟨hent, c2, hmem2, hdec2⟩ := viewFor_mem hv
    rw [snd_eq_of_nodup_keys hnd hmem2 hmem, hdec] at hdec2
    cases hdec2

/-- C6 witness: the `clinical_notes` ciphertext fails to decrypt, the field is
withheld, and the rest of the entitled view is still produced. -/
theorem decrypt_fails_closed_witness :
    (evBad.payload.map Prod.fst).Nodup ∧
    ("clinical_notes", "bad") ∈ evBad.payload ∧
    decrypt env0.keys "bad" (env0.classification "clinical_notes") env0.key_reference =
      .error .cryptoFailure ∧
    ("clinical_notes", "plain:bad") ∉ viewFor env0 evBad sub0 ∧
    viewFor env0 evBad sub0 = [("metadata", "plain:m1")] :=
  ⟨by decide, by decide, rfl,
    (decrypt_fails_closed env0).2 evBad sub0 "clinical_notes" "bad" .cryptoFailure
      (by decide) (by decide) rfl "plain:bad",
    by decide⟩

/-- C7: a malformed upstream message is dropped and logged — the only state
change is the drop counter — and any subsequent message is then processed
exactly as it would have been without the malformed one. -/
theorem malformed_dropped (env : GateEnv) (raw : String) (s : PState) (m : UpstreamMsg) :
    ingest env (.malformed raw) s = { s with droppedCount := s.droppedCount + 1 } ∧
    ingest env m (ingest env (.malformed raw) s) =
      { ingest env m s with droppedCount := (ingest env m s).droppedCount + 1 } := by
  refine ⟨rfl, ?_⟩
  cases m with
  | malformed raw2 => rfl
  | changed ek ei tn pt oa pl enc => rfl

end Pipeline
end ChartWise
